import Mathlib

/-!
# Consoles: the native value bridge (`consoles-computers/src/main/c/value.c`)

A shallow embedding of the JNI unit that implements `LuaNScriptValue`: the tagged
value cell, the scalar translators, the array translator, the globals bridge and
the call marshaler.  The entry points keep the names of the C functions without
the `Java_ca_jarcode_ascript_luanative_LuaNScriptValue_` part.

Conventions of the embedding:
* a JNI entry point that may leave an exception pending returns `Except Error α`;
  `.error e` is "returned 0 with `e` pending", `.ok a` is "returned `a`, nothing pending";
* the interpreter state a cell points to (`inst->state`, `data.state`) is passed
  explicitly and returned;
* C `long`/`jlong` are 64-bit (LP64); narrowing integer casts wrap.
-/

namespace Consoles

/-! ## Data model (`engine.h`, as used by `value.c`) -/

/-- The type tags `ENGINE_*` that `value.c` compares `value->type` against. -/
inductive engine_type where
  | ENGINE_NULL
  | ENGINE_BOOLEAN
  | ENGINE_FLOATING
  | ENGINE_INTEGRAL
  | ENGINE_STRING
  | ENGINE_ARRAY
  | ENGINE_JAVA_OBJECT
  | ENGINE_JAVA_LAMBDA_FUNCTION
  | ENGINE_JAVA_REFLECT_FUNCTION
  | ENGINE_LUA_FUNCTION
  | ENGINE_LUA_GLOBALS
  deriving DecidableEq, Repr

open engine_type

/-- A C `double`, kept as its bit pattern.  No arithmetic is done on it here. -/
structure Double where
  bits : Nat
  deriving DecidableEq, Repr

/-- A JNI `jfloat`, kept as its bit pattern. -/
structure jfloat where
  bits : Nat
  deriving DecidableEq, Repr

/-- The C conversions between `double` and the other numeric types.  Their results
are fixed by the platform (and undefined by the C standard out of range), so the
translators take them as a parameter instead of fixing one behaviour. -/
structure CCast where
  /-- the cast `(jlong) d` and `(long) d` -/
  d2l : Double → Int
  /-- the cast `(jint) d` -/
  d2i : Double → Int
  /-- the cast `(jshort) d` -/
  d2s : Double → Int
  /-- the cast `(jbyte) d` -/
  d2b : Double → Int
  /-- the cast `(jfloat) d` -/
  d2f : Double → jfloat
  /-- the cast `(jfloat) i` of a `long` -/
  l2f : Int → jfloat
  /-- the cast `(jdouble) i` of a `long` -/
  l2d : Int → Double

/-- A pointer to an `engine_inst`; only its identity matters to this unit. -/
structure engine_inst where
  id : Nat
  deriving DecidableEq, Repr

/-- A reference to a host (Java) object held by an `ENGINE_JAVA_OBJECT` cell. -/
structure ObjRef where
  id : Nat
  deriving DecidableEq, Repr

/-- A pointer to a `lua_State`, as stored in the payload of a globals cell. -/
structure StateRef where
  id : Nat
  deriving DecidableEq, Repr

/-- The union `data` of an `engine_value` together with the tag that selects the
live member: one constructor per tag, carrying the member the code reads for it.
`V` is the type of array elements (the cells themselves). -/
inductive engine_data (V : Type) where
  /-- the tag ENGINE_NULL, no payload -/
  | null
  /-- the tag ENGINE_BOOLEAN, payload `data.i` -/
  | boolean (i : Int)
  /-- the tag ENGINE_FLOATING, payload `data.d` -/
  | floating (d : Double)
  /-- the tag ENGINE_INTEGRAL, payload `data.i` (a C `long`) -/
  | integral (i : Int)
  /-- the tag ENGINE_STRING, payload `data.str` (`none` is the null pointer) -/
  | string (str : Option String)
  /-- the tag ENGINE_ARRAY, payload `data.array`: `values[0..length)`, an element
  being `none` when the pointer is NULL -/
  | array (values : List (Option V))
  /-- the tag ENGINE_JAVA_OBJECT, payload `data.obj` -/
  | javaObject (obj : ObjRef)
  /-- the tag ENGINE_JAVA_LAMBDA_FUNCTION -/
  | javaLambdaFunction
  /-- the tag ENGINE_JAVA_REFLECT_FUNCTION -/
  | javaReflectFunction
  /-- the tag ENGINE_LUA_FUNCTION, payload `data.func` (registry handle) -/
  | luaFunction (func : Int)
  /-- the tag ENGINE_LUA_GLOBALS, payload `data.state` -/
  | luaGlobals (state : StateRef)

/-- The struct `engine_value`: tagged payload and the (nullable) `inst` pointer. -/
inductive engine_value where
  | mk (data : engine_data engine_value) (inst : Option engine_inst)

namespace engine_value

/-- The field `data` (with its tag). -/
def data : engine_value → engine_data engine_value
  | mk d _ => d

/-- The field `inst`; `none` is NULL (a shared value). -/
def inst : engine_value → Option engine_inst
  | mk _ i => i

/-- The field `type`. -/
def type (v : engine_value) : engine_type :=
  match v.data with
  | .null => ENGINE_NULL
  | .boolean _ => ENGINE_BOOLEAN
  | .floating _ => ENGINE_FLOATING
  | .integral _ => ENGINE_INTEGRAL
  | .string _ => ENGINE_STRING
  | .array _ => ENGINE_ARRAY
  | .javaObject _ => ENGINE_JAVA_OBJECT
  | .javaLambdaFunction => ENGINE_JAVA_LAMBDA_FUNCTION
  | .javaReflectFunction => ENGINE_JAVA_REFLECT_FUNCTION
  | .luaFunction _ => ENGINE_LUA_FUNCTION
  | .luaGlobals _ => ENGINE_LUA_GLOBALS

end engine_value

/-- A JNI reference as the entry points receive it: the null reference, or a
`LuaNScriptValue` wrapper whose `address` field holds the native cell (`none`
when the field is 0). -/
inductive jobject where
  | null
  | wrapper (address : Option engine_value)

/-- The exceptions this unit throws, named after the error kinds of the design;
each constructor quotes the message of the `throw`/`throwf` it stands for. -/
inductive Error where
  /-- "C: could not find internal value" -/
  | ValueNotFound
  /-- "C: tried to translate value to TARGET (%d)", with the tag printed by %d -/
  | TypeMismatch (target : String) (tag : engine_type)
  /-- "array component type is null" -/
  | NullComponentType
  /-- an exception raised by a host call (getComponentType, Lua.translate) -/
  | HostException (msg : String)
  /-- "J->C: globals value is not associated with engine instance" -/
  | GlobalsNotAssociated
  /-- "J->C: tried to set global value with non-string key" -/
  | InvalidKeyType
  /-- "J->C: internal error: null string value (bad value)" -/
  | NullKeyValue
  /-- "J->C: tried to set non-global value (%d)" -/
  | NotGlobals (tag : engine_type)
  /-- "J->C: tried to index value with invalid key" -/
  | InvalidKey
  /-- "J->C: tried to index value (array) with non-number key" -/
  | NonNumberKey
  /-- "J->C: tried to index value (array) with out-of-range key" -/
  | IndexOutOfRange
  /-- "J->C: the native backend does not allow indexing globals with non-string values" -/
  | UnsupportedGlobalKeyType
  /-- "J->C: tried to index non-array/non-global value" -/
  | NotIndexable
  /-- "J->C: tried to call stub (lambda func)" / "(reflect func)" -/
  | UnimplementedCallKind (tag : engine_type)
  /-- "J->C: internal error: failed to index function from registry" -/
  | InternalRegistryMiss
  /-- "J->C: internal error: lua function is a shared value" -/
  | InternalError
  /-- "J->C: tried to call value as function: %d" -/
  | NotCallable (tag : engine_type)
  /-- not an exception: the code reads a union member that the tag of the cell
  does not select (undefined behaviour in C) -/
  | WrongVariantRead (tag : engine_type)
  /-- not an exception: the code dereferences a NULL pointer (a crash) -/
  | NullDereference
  deriving DecidableEq, Repr

/-- The helper `findnative`: the cell behind a wrapper, or a thrown ValueNotFound
when the address field is 0.  The null reference is treated like a wrapper
without a cell. -/
def findnative : jobject → Except Error engine_value
  | .wrapper (some v) => .ok v
  | .wrapper none => .error .ValueNotFound
  | .null => .error .ValueNotFound

/-- The helper `engine_unwrap`, which is `findnative`. -/
def engine_unwrap (obj : jobject) : Except Error engine_value := findnative obj

/-- The helper `engine_wrap`: the wrapper `value->ref` paired with a cell. -/
def engine_wrap (value : engine_value) : jobject := .wrapper (some value)

/-! ## Integer casts -/

/-- The value of an integer after a cast to a signed integer type of `w` bits
(wraparound, as every supported C compiler implements the narrowing cast). -/
def castSigned (w : Nat) (i : Int) : Int :=
  (i + 2 ^ (w - 1)) % 2 ^ w - 2 ^ (w - 1)

/-- The value of an integer after a cast to an unsigned integer type of `w` bits. -/
def castUnsigned (w : Nat) (i : Int) : Int :=
  i % 2 ^ w

/-! ## Type query and scalar translation -/

/-- The entry point `translateObj`. -/
def translateObj (this : jobject) : Except Error ObjRef :=
  match findnative this with
  | .error e => .error e
  | .ok value =>
    match value.data with
    | .javaObject obj => .ok obj
    | _ => .error (.TypeMismatch "object" value.type)

/-- The entry point `canTranslateObj`. -/
def canTranslateObj (this : jobject) : Bool :=
  match findnative this with
  | .ok value => value.type == ENGINE_JAVA_OBJECT
  | .error _ => false

/-- The entry point `translateString`; `NewStringUTF` copies the bytes (and gives
the null string for a null pointer). -/
def translateString (this : jobject) : Except Error (Option String) :=
  match findnative this with
  | .error e => .error e
  | .ok value =>
    match value.data with
    | .string str => .ok str
    | _ => .error (.TypeMismatch "string" value.type)

/-- The entry point `canTranslateString`. -/
def canTranslateString (this : jobject) : Bool :=
  match findnative this with
  | .ok value => value.type == ENGINE_STRING
  | .error _ => false

/-- The entry point `translateLong`. -/
def translateLong (fp : CCast) (this : jobject) : Except Error Int :=
  match findnative this with
  | .error e => .error e
  | .ok value =>
    match value.data with
    | .floating d => .ok (fp.d2l d)
    | .integral i => .ok i
    | _ => .error (.TypeMismatch "long" value.type)

/-- The entry point `canTranslateLong`. -/
def canTranslateLong (this : jobject) : Bool :=
  match findnative this with
  | .ok value => value.type == ENGINE_FLOATING || value.type == ENGINE_INTEGRAL
  | .error _ => false

/-- The entry point `translateShort`. -/
def translateShort (fp : CCast) (this : jobject) : Except Error Int :=
  match findnative this with
  | .error e => .error e
  | .ok value =>
    match value.data with
    | .floating d => .ok (fp.d2s d)
    | .integral i => .ok (castSigned 16 i)
    | _ => .error (.TypeMismatch "short" value.type)

/-- The entry point `canTranslateShort`. -/
def canTranslateShort (this : jobject) : Bool :=
  match findnative this with
  | .ok value => value.type == ENGINE_FLOATING || value.type == ENGINE_INTEGRAL
  | .error _ => false

/-- The entry point `translateByte`. -/
def translateByte (fp : CCast) (this : jobject) : Except Error Int :=
  match findnative this with
  | .error e => .error e
  | .ok value =>
    match value.data with
    | .floating d => .ok (fp.d2b d)
    | .integral i => .ok (castSigned 8 i)
    | _ => .error (.TypeMismatch "byte" value.type)

/-- The entry point `canTranslateByte`. -/
def canTranslateByte (this : jobject) : Bool :=
  match findnative this with
  | .ok value => value.type == ENGINE_FLOATING || value.type == ENGINE_INTEGRAL
  | .error _ => false

/-- The entry point `translateInt`. -/
def translateInt (fp : CCast) (this : jobject) : Except Error Int :=
  match findnative this with
  | .error e => .error e
  | .ok value =>
    match value.data with
    | .floating d => .ok (fp.d2i d)
    | .integral i => .ok (castSigned 32 i)
    | _ => .error (.TypeMismatch "int" value.type)

/-- The entry point `canTranslateInt`. -/
def canTranslateInt (this : jobject) : Bool :=
  match findnative this with
  | .ok value => value.type == ENGINE_FLOATING || value.type == ENGINE_INTEGRAL
  | .error _ => false

/-- The entry point `translateFloat`. -/
def translateFloat (fp : CCast) (this : jobject) : Except Error jfloat :=
  match findnative this with
  | .error e => .error e
  | .ok value =>
    match value.data with
    | .floating d => .ok (fp.d2f d)
    | .integral i => .ok (fp.l2f i)
    | _ => .error (.TypeMismatch "float" value.type)

/-- The entry point `canTranslateFloat`. -/
def canTranslateFloat (this : jobject) : Bool :=
  match findnative this with
  | .ok value => value.type == ENGINE_FLOATING || value.type == ENGINE_INTEGRAL
  | .error _ => false

/-- The entry point `translateDouble`. -/
def translateDouble (fp : CCast) (this : jobject) : Except Error Double :=
  match findnative this with
  | .error e => .error e
  | .ok value =>
    match value.data with
    | .floating d => .ok d
    | .integral i => .ok (fp.l2d i)
    | _ => .error (.TypeMismatch "double" value.type)

/-- The entry point `canTranslateDouble`. -/
def canTranslateDouble (this : jobject) : Bool :=
  match findnative this with
  | .ok value => value.type == ENGINE_FLOATING || value.type == ENGINE_INTEGRAL
  | .error _ => false

/-- The entry point `translateBoolean`.  Its message says "byte", as in the source;
`jboolean` is an unsigned 8-bit type. -/
def translateBoolean (this : jobject) : Except Error Int :=
  match findnative this with
  | .error e => .error e
  | .ok value =>
    match value.data with
    | .boolean i => .ok (castUnsigned 8 i)
    | _ => .error (.TypeMismatch "byte" value.type)

/-- The entry point `canTranslateBoolean`. -/
def canTranslateBoolean (this : jobject) : Bool :=
  match findnative this with
  | .ok value => value.type == ENGINE_BOOLEAN
  | .error _ => false

/-- The entry point `canTranslateArray`. -/
def canTranslateArray (this : jobject) : Bool :=
  match findnative this with
  | .ok value => value.type == ENGINE_ARRAY
  | .error _ => false

/-- The entry point `isNull`. -/
def isNull (this : jobject) : Bool :=
  match findnative this with
  | .ok value => value.type == ENGINE_NULL
  | .error _ => false

/-- The scalar target kinds of the translator pairs. -/
inductive Kind where
  | boolean | byte | short | int | long | float | double | string | object
  deriving DecidableEq, Repr

/-- A translated host value, one constructor per scalar kind. -/
inductive jvalue where
  | z (v : Int)
  | b (v : Int)
  | s (v : Int)
  | i (v : Int)
  | j (v : Int)
  | f (v : jfloat)
  | d (v : Double)
  | str (v : Option String)
  | l (v : ObjRef)
  deriving DecidableEq, Repr

/-- The translator of kind `K`: the entry point `translateK`, its result boxed. -/
def translateK (fp : CCast) : Kind → jobject → Except Error jvalue
  | .boolean, this => (translateBoolean this).map jvalue.z
  | .byte, this => (translateByte fp this).map jvalue.b
  | .short, this => (translateShort fp this).map jvalue.s
  | .int, this => (translateInt fp this).map jvalue.i
  | .long, this => (translateLong fp this).map jvalue.j
  | .float, this => (translateFloat fp this).map jvalue.f
  | .double, this => (translateDouble fp this).map jvalue.d
  | .string, this => (translateString this).map jvalue.str
  | .object, this => (translateObj this).map jvalue.l

/-- The type query of kind `K`: the entry point `canTranslateK`. -/
def canTranslateK : Kind → jobject → Bool
  | .boolean => canTranslateBoolean
  | .byte => canTranslateByte
  | .short => canTranslateShort
  | .int => canTranslateInt
  | .long => canTranslateLong
  | .float => canTranslateFloat
  | .double => canTranslateDouble
  | .string => canTranslateString
  | .object => canTranslateObj

/-! ## The interpreter state (`lua.h`, as used by `value.c`) -/

/-- A value of the interpreter.  Tables are kept by value and by their integer
keys, the only keys this unit uses. -/
inductive LuaValue where
  | nil
  | boolean (b : Bool)
  | number (n : Int)
  | real (d : Double)
  | string (s : String)
  | func (id : Nat)
  | userdata (id : Nat)
  | table (entries : List (Int × LuaValue))

/-- The calls made on the interpreter state, in the order they are made. -/
inductive LuaOp where
  | getglobal (name : String)
  | setglobal (name : String)
  | pop (n : Nat)
  | newtable
  | pushvalue (idx : Int)
  | pushinteger (n : Int)
  | pushnil
  | rawget (idx : Int)
  | remove (idx : Int)
  | engine_pushvalue
  | engine_popvalue
  | engine_call (nargs : Nat)
  deriving DecidableEq, Repr

/-- The part of a `lua_State` this unit acts on: the stack (top first), the
global namespace, and a log of the API calls made so far (oldest first). -/
structure lua_State where
  stack : List LuaValue
  globals : String → LuaValue
  trace : List LuaOp

/-- The position, counted from the top, of stack index `idx` (negative indices
count from the top, positive ones from the bottom). -/
def fromTop (L : lua_State) (idx : Int) : Nat :=
  if idx < 0 then (-idx - 1).toNat else L.stack.length - idx.toNat

/-- The value at stack index `idx`, `nil` where there is none. -/
def index2value (L : lua_State) (idx : Int) : LuaValue :=
  (L.stack.get? (fromTop L idx)).getD .nil

/-- The API call `lua_getglobal`: pushes the value of the global `name`. -/
def lua_getglobal (L : lua_State) (name : String) : lua_State :=
  { L with stack := L.globals name :: L.stack, trace := L.trace ++ [.getglobal name] }

/-- The API call `lua_setglobal`: pops a value and binds it to the global `name`. -/
def lua_setglobal (L : lua_State) (name : String) : lua_State :=
  { stack := L.stack.tail
    globals := fun k => if k = name then L.stack.headD .nil else L.globals k
    trace := L.trace ++ [.setglobal name] }

/-- The API query `lua_isnil`; it leaves the state alone. -/
def lua_isnil (L : lua_State) (idx : Int) : Bool :=
  match index2value L idx with
  | .nil => true
  | _ => false

/-- The API call `lua_pop`: drops the top `n` values. -/
def lua_pop (L : lua_State) (n : Nat) : lua_State :=
  { L with stack := L.stack.drop n, trace := L.trace ++ [.pop n] }

/-- The API call `lua_newtable`: pushes an empty table. -/
def lua_newtable (L : lua_State) : lua_State :=
  { L with stack := .table [] :: L.stack, trace := L.trace ++ [.newtable] }

/-- The API call `lua_pushvalue`: pushes a copy of the value at `idx`. -/
def lua_pushvalue (L : lua_State) (idx : Int) : lua_State :=
  { L with stack := index2value L idx :: L.stack, trace := L.trace ++ [.pushvalue idx] }

/-- The API call `lua_pushinteger`. -/
def lua_pushinteger (L : lua_State) (n : Int) : lua_State :=
  { L with stack := .number n :: L.stack, trace := L.trace ++ [.pushinteger n] }

/-- The API call `lua_pushnil`. -/
def lua_pushnil (L : lua_State) : lua_State :=
  { L with stack := .nil :: L.stack, trace := L.trace ++ [.pushnil] }

/-- The raw lookup `t[k]`: the entry of an integer key in a table, `nil` when it
has none.  Anything else (a key that is no integer, a value that is no table,
which the API forbids) reads as `nil`. -/
def rawlookup : LuaValue → LuaValue → LuaValue
  | .table entries, .number k => (entries.lookup k).getD .nil
  | _, _ => .nil

/-- The API call `lua_rawget`: replaces the key on top of the stack by `t[key]`,
`t` being the value at `idx`. -/
def lua_rawget (L : lua_State) (idx : Int) : lua_State :=
  { L with
    stack := rawlookup (index2value L idx) (L.stack.headD .nil) :: L.stack.tail
    trace := L.trace ++ [.rawget idx] }

/-- The API call `lua_remove`: removes the value at `idx`, shifting down the
values above it. -/
def lua_remove (L : lua_State) (idx : Int) : lua_State :=
  { L with stack := L.stack.eraseIdx (fromTop L idx), trace := L.trace ++ [.remove idx] }

/-! ## The collaborators of `engine.c` and of the host side -/

/-- The behaviour of the collaborators that `value.c` calls and does not define:
the reserved name `FUNCTION_REGISTRY` of `engine.h`, the stack encoding written
by `engine_pushvalue`, the cell built by `engine_popvalue`, the run of an
interpreter function inside `engine_call`, and `value_copy`. -/
structure Engine where
  /-- the reserved global name of the function registry -/
  FUNCTION_REGISTRY : String
  /-- the stack encoding of a cell -/
  encode : engine_value → LuaValue
  /-- the cell that a drained stack value becomes, bound to the given instance -/
  decode : Option engine_inst → LuaValue → engine_value
  /-- the run of function `f` on its arguments (first argument first): the
  collected result, if any, and the global namespace afterwards -/
  run : LuaValue → List LuaValue → (String → LuaValue) →
    Option engine_value × (String → LuaValue)
  /-- the duplicate made by `value_copy` -/
  copy : engine_value → engine_value

/-- Modelled from the spec: `engine_pushvalue` of `engine.c` (pushValue, host to
stack), which is not part of this unit: it pushes the stack encoding of one cell. -/
def engine_pushvalue (E : Engine) (L : lua_State) (value : engine_value) : lua_State :=
  { L with stack := E.encode value :: L.stack, trace := L.trace ++ [.engine_pushvalue] }

/-- Modelled from the spec: `engine_popvalue` of `engine.c` (popValue, stack to
host), which is not part of this unit: it drains exactly one value off the stack
into a newly built cell bound to `inst`. -/
def engine_popvalue (E : Engine) (inst : Option engine_inst) (L : lua_State) :
    engine_value × lua_State :=
  (E.decode inst (L.stack.headD .nil),
    { L with stack := L.stack.tail, trace := L.trace ++ [.engine_popvalue] })

/-- Modelled from the spec: `engine_call` of `engine.c` (callAndCollect), which is
not part of this unit: it invokes the function that sits under the `nargs`
topmost values with those values as arguments, consuming the function and the
arguments, and drains the single result into a cell (or NULL).  The function slot
is whatever lies `nargs` below the top; with fewer values than that on the stack
the whole stack is consumed and nothing is run. -/
def engine_call (E : Engine) (L : lua_State) (nargs : Nat) :
    Option engine_value × lua_State :=
  match L.stack.drop nargs with
  | f :: rest =>
    let r := E.run f (L.stack.take nargs).reverse L.globals
    (r.1, { stack := rest, globals := r.2, trace := L.trace ++ [.engine_call nargs] })
  | [] => (none, { L with stack := [], trace := L.trace ++ [.engine_call nargs] })

/-! ## Array translation -/

/-- A host class descriptor: a class that is no array, or the array class of a
component class. -/
inductive jclass where
  | plain (name : String)
  | arrayOf (component : jclass)
  deriving DecidableEq, Repr

/-- A host object as the array translator sees it: the null reference, a boxed
scalar, another host object, or an array with its component class and slots. -/
inductive JavaObject where
  | null
  | boxed (v : jvalue)
  | ref (obj : ObjRef)
  | array (comptype : jclass) (slots : List JavaObject)

/-- The host call `Class.getComponentType` through `id_comptype`: an exception
when `array_type` is no class object (`none`), NULL for a class that is no array. -/
def getComponentType : Option jclass → Except Error (Option jclass)
  | none => .error (.HostException "getComponentType")
  | some (.plain _) => .ok none
  | some (.arrayOf c) => .ok (some c)

/-- Modelled from the spec: `Array.newInstance` of the host side (construction of
a dynamically-typed array given an element-type descriptor and length), reached
through `id_newarray`: a new array of `length` empty slots. -/
def Array_newInstance (comptype : jclass) (length : Nat) : JavaObject :=
  .array comptype (List.replicate length .null)

/-- Modelled from the spec: `Array.set` of the host side (element assignment into
such an array by index), reached through `id_arrayset`. -/
def Array_set (array : JavaObject) (t : Nat) (element : JavaObject) : JavaObject :=
  match array with
  | .array comptype slots => .array comptype (slots.set t element)
  | other => other

/-- The loop of `translateArray` from index `t` on, `values` being the elements
`values[t..length)` still to translate.  `translate` is the host method
`Lua.translate(type, value)`; an exception in it ends the function with NULL.
`engine_wrap` reads `->ref` of the element, so a NULL element pointer is a crash. -/
def translateArray_loop (translate : jclass → jobject → Except Error JavaObject)
    (comptype : jclass) :
    List (Option engine_value) → Nat → JavaObject → Except Error JavaObject
  | [], _, array => .ok array
  | none :: _, _, _ => .error .NullDereference
  | some element :: rest, t, array =>
    match translate comptype (engine_wrap element) with
    | .error e => .error e
    | .ok java_element =>
      translateArray_loop translate comptype rest (t + 1) (Array_set array t java_element)

/-- The entry point `translateArray`.  After the throw for a NULL component type
the source does not return; the exception stays pending and is what the caller
gets. -/
def translateArray (translate : jclass → jobject → Except Error JavaObject)
    (this : jobject) (array_type : Option jclass) : Except Error JavaObject :=
  match findnative this with
  | .error e => .error e
  | .ok value =>
    match value.data with
    | .array values =>
      match getComponentType array_type with
      | .error e => .error e
      | .ok none => .error .NullComponentType
      | .ok (some comptype) =>
        translateArray_loop translate comptype values 0
          (Array_newInstance comptype values.length)
    | _ => .error (.TypeMismatch "array" value.type)

/-- The array translation in the words of the design: the error-propagating map
of the element translation over the elements in order, stored in a host array of
the component type. -/
def specTranslateArray (translate : jclass → jobject → Except Error JavaObject)
    (comptype : jclass) (elements : List engine_value) : Except Error JavaObject :=
  (elements.mapM (fun v => translate comptype (engine_wrap v))).map (JavaObject.array comptype)

/-! ## Functions and globals -/

/-- The entry point `set`. -/
def set (E : Engine) (L : lua_State) (this jkey jvalue : jobject) :
    Except Error Unit × lua_State :=
  match jkey, jvalue with
  | .null, _ => (.ok (), L)
  | _, .null => (.ok (), L)
  | _, _ =>
    match findnative this with
    | .error e => (.error e, L)
    | .ok this_value =>
      match findnative jkey with
      | .error e => (.error e, L)
      | .ok key =>
        match findnative jvalue with
        | .error e => (.error e, L)
        | .ok value =>
          match this_value.data with
          | .luaGlobals _ =>
            match this_value.inst with
            | none => (.error .GlobalsNotAssociated, L)
            | some _ =>
              match key.data with
              | .string none => (.error .NullKeyValue, L)
              | .string (some str) =>
                let L1 := engine_pushvalue E L value
                (.ok (), lua_setglobal L1 str)
              | _ => (.error .InvalidKeyType, L)
          | _ => (.error (.NotGlobals this_value.type), L)

/-- The read `c->data.array.values` of the union member `array` of a cell: the
element pointers when the cell is an array, a wrong-variant read otherwise. -/
def data_array_values (c : engine_value) : Except Error (List (Option engine_value)) :=
  match c.data with
  | .array values => .ok values
  | _ => .error (.WrongVariantRead c.type)

/-- A read of an element pointer `c->data.array.values[t]`: of the cell being
indexed (`this`) or of the key cell. -/
inductive ElementRead where
  | ofThis (t : Int)
  | ofKey (t : Int)
  deriving DecidableEq, Repr

/-- What `get` does: the value returned or the exception left pending, the
interpreter state afterwards, and the element reads performed. -/
structure GetOutcome where
  result : Except Error jobject
  state : lua_State
  reads : List ElementRead

/-- The array branch of `get` once the index `t` is computed: the range test
against `value->data.array.length`, then the element read, which the source
takes from `key->data.array.values[t]`. -/
def get_array (E : Engine) (L : lua_State) (values : List (Option engine_value))
    (key : engine_value) (t : Int) : GetOutcome :=
  if t < values.length ∧ t ≥ 0 then
    { state := L
      reads := [.ofKey t]
      result :=
        match data_array_values key with
        | .error e => .error e
        | .ok kvalues =>
          match kvalues.get? t.toNat with
          | none => .error (.WrongVariantRead key.type)
          | some none => .ok .null
          | some (some result) => .ok (engine_wrap (E.copy result)) }
  else { result := .error .IndexOutOfRange, state := L, reads := [] }

/-- The entry point `get`. -/
def get (E : Engine) (fp : CCast) (L : lua_State) (this script_value : jobject) :
    GetOutcome :=
  match findnative this with
  | .error e => { result := .error e, state := L, reads := [] }
  | .ok value =>
    match engine_unwrap script_value with
    | .error _ => { result := .error .InvalidKey, state := L, reads := [] }
    | .ok key =>
      match value.data with
      | .array values =>
        match key.data with
        | .floating d => get_array E L values key (fp.d2l d)
        | .integral i => get_array E L values key i
        | _ => { result := .error .NonNumberKey, state := L, reads := [] }
      | .luaGlobals _ =>
        match key.data with
        | .string none => { result := .error .NullKeyValue, state := L, reads := [] }
        | .string (some str) =>
          let L1 := lua_getglobal L str
          let r := engine_popvalue E value.inst L1
          { result := .ok (engine_wrap r.1), state := r.2, reads := [] }
        | _ => { result := .error .UnsupportedGlobalKeyType, state := L, reads := [] }
      | _ => { result := .error .NotIndexable, state := L, reads := [] }

/-- What one pass of the argument loop of `handlecall` pushes for an element of
`arr`: nothing for the null reference, nil for a wrapper without a cell, the
stack encoding for a cell. -/
def pushedValue (E : Engine) : jobject → Option LuaValue
  | .null => none
  | .wrapper none => some .nil
  | .wrapper (some element) => some (E.encode element)

/-- The argument loop of `handlecall` over the elements of `arr`, left to right.
`pending` is the exception left pending by a failed `engine_unwrap`. -/
def handlecall_pushargs (E : Engine) :
    List jobject → lua_State → Option Error → lua_State × Option Error
  | [], L, pending => (L, pending)
  | .null :: rest, L, pending => handlecall_pushargs E rest L pending
  | .wrapper none :: rest, L, _ =>
    handlecall_pushargs E rest (lua_pushnil L) (some .ValueNotFound)
  | .wrapper (some element) :: rest, L, pending =>
    handlecall_pushargs E rest (engine_pushvalue E L element) pending

/-- The lookup phase of `handlecall`: the registry table is fetched (and created
and bound when the global is nil), then indexed by the handle `func`.  On return
the registry is at index -2 and its entry for `func` at index -1. -/
def handlecall_lookup (E : Engine) (L : lua_State) (func : Int) : lua_State :=
  let L1 := lua_getglobal L E.FUNCTION_REGISTRY
  let L2 :=
    if lua_isnil L1 (-1) then
      lua_setglobal (lua_pushvalue (lua_newtable (lua_pop L1 1)) (-1)) E.FUNCTION_REGISTRY
    else L1
  lua_rawget (lua_pushinteger L2 func) (-2)

/-- The helper `handlecall`; `arr` is `none` for the NULL array of `call()`. -/
def handlecall (E : Engine) (L : lua_State) (this : jobject) (arr : Option (List jobject)) :
    Except Error jobject × lua_State :=
  match findnative this with
  | .error e => (.error e, L)
  | .ok value =>
    match value.data with
    | .javaLambdaFunction => (.error (.UnimplementedCallKind value.type), L)
    | .javaReflectFunction => (.error (.UnimplementedCallKind value.type), L)
    | .luaFunction func =>
      match value.inst with
      | some _ =>
        let L3 := handlecall_lookup E L func
        if lua_isnil L3 (-1) then (.error .InternalRegistryMiss, lua_pop L3 2)
        else
          let L4 := lua_remove L3 (-2)
          let len := match arr with
            | some a => a.length
            | none => 0
          let pushed := match arr with
            | some a => handlecall_pushargs E a L4 none
            | none => (L4, none)
          let r := engine_call E pushed.1 len
          match pushed.2 with
          | some e => (.error e, r.2)
          | none =>
            match r.1 with
            | some ret => (.ok (engine_wrap ret), r.2)
            | none => (.ok .null, r.2)
      | none => (.error .InternalError, L)
    | _ => (.error (.NotCallable value.type), L)

/-- The entry point `call()`. -/
def call (E : Engine) (L : lua_State) (this : jobject) : Except Error jobject × lua_State :=
  handlecall E L this none

/-- The entry point `call(ScriptValue[])`. -/
def callArgs (E : Engine) (L : lua_State) (this : jobject) (arr : Option (List jobject)) :
    Except Error jobject × lua_State :=
  handlecall E L this arr

/-! ## Sample collaborators, used to evaluate the entry points -/

/-- A sample of the C casts: every double converts to 0. -/
def sampleCast : CCast :=
  { d2l := fun _ => 0, d2i := fun _ => 0, d2s := fun _ => 0, d2b := fun _ => 0
    d2f := fun _ => ⟨0⟩, l2f := fun _ => ⟨0⟩, l2d := fun _ => ⟨0⟩ }

/-- A sample engine: integers, booleans and strings are encoded as themselves and
decoded back, everything else as nil; a run returns its first argument as the
collected result and leaves the globals alone. -/
def sampleEngine : Engine :=
  { FUNCTION_REGISTRY := "__functions"
    encode := fun v =>
      match v.data with
      | .integral i => .number i
      | .boolean i => .boolean (i != 0)
      | .string (some s) => .string s
      | _ => .nil
    decode := fun inst x =>
      match x with
      | .number n => .mk (.integral n) inst
      | .boolean b => .mk (.boolean (if b then 1 else 0)) inst
      | .string s => .mk (.string (some s)) inst
      | _ => .mk .null inst
    run := fun _ args g =>
      match args with
      | .number n :: _ => (some (.mk (.integral n) none), g)
      | _ => (none, g)
    copy := fun v => v }

/-- The empty interpreter state: no stack, every global nil, nothing logged. -/
def emptyState : lua_State :=
  { stack := [], globals := fun _ => .nil, trace := [] }

/-- An interpreter state whose registry, bound under the reserved name of the
sample engine, maps the handle 1 to a function; `stack` is the stack on entry. -/
def registryState (stack : List LuaValue) : lua_State :=
  { stack := stack
    globals := fun k => if k = "__functions" then .table [(1, .func 7)] else .nil
    trace := [] }

/-! ## Theorems -/

/-! ### Scalar translation -/

/-- C1: for every cell `c` and every scalar kind `K`, `canTranslateK` answers true
exactly when `translateK` returns a value with no exception pending, and when it
answers false `translateK` fails with a TypeMismatch that carries the tag of the
cell.  The query is a function of the cell alone with a boolean as its only
output: it has no state to change. -/
theorem canTranslateK_iff_translateK_ok (fp : CCast) (K : Kind) (c : engine_value) :
    (canTranslateK K (engine_wrap c) = true ↔
        ∃ r, translateK fp K (engine_wrap c) = .ok r) ∧
      (canTranslateK K (engine_wrap c) = false →
        ∃ target, translateK fp K (engine_wrap c) = .error (.TypeMismatch target c.type)) := by
  obtain ⟨d, i⟩ := c
  cases K <;> cases d <;>
    simp [canTranslateK, translateK, canTranslateBoolean, translateBoolean, canTranslateByte,
      translateByte, canTranslateShort, translateShort, canTranslateInt, translateInt,
      canTranslateLong, translateLong, canTranslateFloat, translateFloat, canTranslateDouble,
      translateDouble, canTranslateString, translateString, canTranslateObj, translateObj,
      findnative, engine_wrap, engine_value.type, engine_value.data, Except.map]

/-- C6: for an Integral cell with payload `i`, whatever `i` is, the narrowing
translations succeed and wrap: `translateByte`, `translateShort` and
`translateInt` return the value of the signed 8-, 16- and 32-bit range that is
congruent to `i` modulo 2^8, 2^16 and 2^32, and `translateLong` returns `i`. -/
theorem translate_integral_wraps (fp : CCast) (i : Int) (inst : Option engine_inst) :
    (∃ b, translateByte fp (engine_wrap (.mk (.integral i) inst)) = .ok b ∧
        -2 ^ 7 ≤ b ∧ b < 2 ^ 7 ∧ b ≡ i [ZMOD 2 ^ 8]) ∧
      (∃ s, translateShort fp (engine_wrap (.mk (.integral i) inst)) = .ok s ∧
        -2 ^ 15 ≤ s ∧ s < 2 ^ 15 ∧ s ≡ i [ZMOD 2 ^ 16]) ∧
      (∃ n, translateInt fp (engine_wrap (.mk (.integral i) inst)) = .ok n ∧
        -2 ^ 31 ≤ n ∧ n < 2 ^ 31 ∧ n ≡ i [ZMOD 2 ^ 32]) ∧
      translateLong fp (engine_wrap (.mk (.integral i) inst)) = .ok i := by
  refine ⟨⟨_, rfl, ?_⟩, ⟨_, rfl, ?_⟩, ⟨_, rfl, ?_⟩, rfl⟩ <;>
    (simp only [castSigned, Int.ModEq]; norm_num; omega)

/-! ### Array indexing and array translation -/

/-- C4: for an Array cell of length n and an Integral key with payload `i`, when
`i < 0` or `i >= n` the entry point `get` fails with IndexOutOfRange, returns no
value, leaves the interpreter state alone and reads no element of any array
payload. -/
theorem get_array_out_of_range (E : Engine) (fp : CCast) (L : lua_State)
    (values : List (Option engine_value)) (ainst kinst : Option engine_inst) (i : Int)
    (h : i < 0 ∨ (values.length : Int) ≤ i) :
    get E fp L (engine_wrap (.mk (.array values) ainst))
        (engine_wrap (.mk (.integral i) kinst)) =
      { result := .error .IndexOutOfRange, state := L, reads := [] } := by
  have hn : ¬ (i < (values.length : Int) ∧ i ≥ 0) := by omega
  simp [get, get_array, findnative, engine_unwrap, engine_wrap, engine_value.data, hn]

/-- Witness of C4: index 2 on an array of length 2, and index -1. -/
theorem get_array_out_of_range_witness :
    get sampleEngine sampleCast emptyState
        (engine_wrap (.mk (.array [some (.mk (.integral 5) none), none]) none))
        (engine_wrap (.mk (.integral 2) none)) =
      { result := .error .IndexOutOfRange, state := emptyState, reads := [] } :=
  get_array_out_of_range sampleEngine sampleCast emptyState _ none none 2 (by decide)

/-- The loop of `translateArray` over present elements, started with the slots
`done` filled: it is the error-propagating map over the remaining elements. -/
theorem translateArray_loop_eq (translate : jclass → jobject → Except Error JavaObject)
    (comptype : jclass) (rest : List engine_value) :
    ∀ done : List JavaObject,
      translateArray_loop translate comptype (rest.map some) done.length
          (.array comptype (done ++ List.replicate rest.length .null)) =
        (rest.mapM (fun v => translate comptype (engine_wrap v))).map
          (fun es => JavaObject.array comptype (done ++ es)) := by
  induction rest with
  | nil =>
    intro done
    simp only [List.map_nil, translateArray_loop, List.mapM_nil, List.length_nil,
      List.replicate_zero, List.append_nil]
    show Except.ok (JavaObject.array comptype done) =
      Except.ok (JavaObject.array comptype (done ++ []))
    rw [List.append_nil]
  | cons v rest ih =>
    intro done
    simp only [List.map_cons, translateArray_loop, List.mapM_cons, List.length_cons,
      List.replicate_succ]
    cases hv : translate comptype (engine_wrap v) with
    | error e => simp [bind, Except.bind, Except.map]
    | ok e =>
      have hset : Array_set (.array comptype (done ++ JavaObject.null ::
          List.replicate rest.length .null)) done.length e =
          .array comptype ((done ++ [e]) ++ List.replicate rest.length .null) := by
        simp [Array_set]
      have := ih (done ++ [e])
      simp only [List.length_append, List.length_singleton] at this
      simp only [hset, this]
      cases hr : rest.mapM (fun v => translate comptype (engine_wrap v)) <;>
        simp [bind, Except.bind, Except.map, pure, Except.pure]

/-- The error-propagating map succeeds with `es` exactly when every element
translates, in order, to the element of `es` at its index. -/
theorem mapM_ok_iff_forall2 {α β : Type} (f : α → Except Error β) :
    ∀ (vs : List α) (es : List β),
      vs.mapM f = .ok es ↔ List.Forall₂ (fun v e => f v = .ok e) vs es := by
  intro vs
  induction vs with
  | nil =>
    intro es
    simp only [List.mapM_nil]
    constructor
    · intro h; cases h; exact List.Forall₂.nil
    · intro h; cases h; rfl
  | cons v vs ih =>
    intro es
    simp only [List.mapM_cons]
    cases hv : f v with
    | error e =>
      simp only [bind, Except.bind]
      constructor
      · intro h; cases h
      · intro h; cases h with
        | cons h1 _ => rw [hv] at h1; cases h1
    | ok b =>
      cases hr : vs.mapM f with
      | error e =>
        simp only [bind, Except.bind]
        constructor
        · intro h; cases h
        · intro h; cases h with
          | cons _ h2 => rw [← ih, hr] at h2; cases h2
      | ok bs =>
        simp only [bind, Except.bind, pure, Except.pure]
        constructor
        · intro h
          cases h
          exact List.Forall₂.cons hv ((ih bs).1 hr)
        · intro h
          cases h with
          | cons h1 h2 =>
            rw [hv] at h1
            cases h1
            rw [← ih, hr] at h2
            cases h2
            rfl

/-- The error-propagating map fails as soon as one element fails. -/
theorem mapM_error_of_mem {α β : Type} (f : α → Except Error β) :
    ∀ (vs : List α) (v : α) (e : Error), v ∈ vs → f v = .error e →
      ∃ e2, vs.mapM f = .error e2 := by
  intro vs
  induction vs with
  | nil => intro v e hmem; cases hmem
  | cons a vs ih =>
    intro v e hmem hv
    simp only [List.mapM_cons]
    cases ha : f a with
    | error e1 => exact ⟨e1, rfl⟩
    | ok b =>
      have hmem2 : v ∈ vs := by
        rcases List.mem_cons.1 hmem with h | h
        · rw [h, ha] at hv; cases hv
        · exact h
      obtain ⟨e2, he2⟩ := ih v e hmem2 hv
      exact ⟨e2, by rw [he2]; rfl⟩

/-- C5: for an Array cell with elements `vs` and an array class of component type
`T`, `translateArray` is the error-propagating map of the element translation over
the elements in order.  When every element translates, the result is a host array
of component type `T` with exactly `vs.length` slots, slot i holding the
translation of element i; when some element fails, the call fails and returns no
array. -/
theorem translateArray_eq_spec (translate : jclass → jobject → Except Error JavaObject)
    (T : jclass) (vs : List engine_value) (inst : Option engine_inst) :
    translateArray translate (engine_wrap (.mk (.array (vs.map some)) inst))
        (some (.arrayOf T)) = specTranslateArray translate T vs ∧
      (∀ es, List.Forall₂ (fun v e => translate T (engine_wrap v) = .ok e) vs es →
        translateArray translate (engine_wrap (.mk (.array (vs.map some)) inst))
            (some (.arrayOf T)) = .ok (.array T es) ∧ es.length = vs.length) ∧
      (∀ v e, v ∈ vs → translate T (engine_wrap v) = .error e →
        ∃ e2, translateArray translate (engine_wrap (.mk (.array (vs.map some)) inst))
            (some (.arrayOf T)) = .error e2) := by
  have heq : translateArray translate (engine_wrap (.mk (.array (vs.map some)) inst))
      (some (.arrayOf T)) = specTranslateArray translate T vs := by
    have := translateArray_loop_eq translate T vs []
    simp only [List.length_nil, List.nil_append] at this
    simp [translateArray, findnative, engine_wrap, engine_value.data, getComponentType,
      Array_newInstance, specTranslateArray, this]
  refine ⟨heq, ?_, ?_⟩
  · intro es hes
    rw [heq, specTranslateArray, (mapM_ok_iff_forall2 _ vs es).2 hes]
    exact ⟨rfl, hes.length_eq.symm⟩
  · intro v e hmem hv
    obtain ⟨e2, he2⟩ :=
      mapM_error_of_mem (fun v => translate T (engine_wrap v)) vs v e hmem hv
    exact ⟨e2, by rw [heq, specTranslateArray, he2]; rfl⟩

/-- Witness of C5: three Integral cells translated with `translateInt` as the
element translation give the host array of the same three values in order. -/
theorem translateArray_eq_spec_witness :
    translateArray (fun _ v => (translateInt sampleCast v).map (fun n => .boxed (.i n)))
        (engine_wrap (.mk (.array ([.mk (.integral 1) none, .mk (.integral 2) none,
          .mk (.integral 3) none].map some)) none))
        (some (.arrayOf (.plain "int"))) =
      .ok (.array (.plain "int") [.boxed (.i 1), .boxed (.i 2), .boxed (.i 3)]) :=
  ((translateArray_eq_spec _ (.plain "int") _ none).2.1
    [.boxed (.i 1), .boxed (.i 2), .boxed (.i 3)]
    (.cons rfl (.cons rfl (.cons rfl .nil)))).1

/-! ### Globals -/

/-- C7: on a globals cell bound to an instance, with a String key of name `name`
and an Integral value of payload `n`, `set` succeeds and binds the stack encoding
of the value to the global `name`, and a `get` with the same key on the resulting
state returns an Integral cell of payload `n`, provided that draining the encoding
of the value gives its payload back. -/
theorem set_then_get_integral (E : Engine) (fp : CCast) (L : lua_State) (st : StateRef)
    (inst : engine_inst) (name : String) (kinst vinst : Option engine_inst) (n : Int)
    (hround : (E.decode (some inst) (E.encode (.mk (.integral n) vinst))).data = .integral n) :
    (set E L (engine_wrap (.mk (.luaGlobals st) (some inst)))
        (engine_wrap (.mk (.string (some name)) kinst))
        (engine_wrap (.mk (.integral n) vinst))).1 = .ok () ∧
      (set E L (engine_wrap (.mk (.luaGlobals st) (some inst)))
        (engine_wrap (.mk (.string (some name)) kinst))
        (engine_wrap (.mk (.integral n) vinst))).2.globals name =
          E.encode (.mk (.integral n) vinst) ∧
      ∃ c, (get E fp
          (set E L (engine_wrap (.mk (.luaGlobals st) (some inst)))
            (engine_wrap (.mk (.string (some name)) kinst))
            (engine_wrap (.mk (.integral n) vinst))).2
          (engine_wrap (.mk (.luaGlobals st) (some inst)))
          (engine_wrap (.mk (.string (some name)) kinst))).result = .ok (engine_wrap c) ∧
        c.data = .integral n ∧ c.type = ENGINE_INTEGRAL := by
  refine ⟨rfl, ?_, ?_⟩
  · simp [set, findnative, engine_wrap, engine_value.data, engine_value.inst, lua_setglobal,
      engine_pushvalue]
  · refine ⟨E.decode (some inst) (E.encode (.mk (.integral n) vinst)), ?_, hround, ?_⟩
    · simp [get, set, findnative, engine_unwrap, engine_wrap, engine_value.data,
        engine_value.inst, lua_setglobal, lua_getglobal, engine_pushvalue, engine_popvalue]
    · simp [engine_value.type, hround]

/-- Witness of C7: the global "x" set to 42 and read back with the sample engine. -/
theorem set_then_get_integral_witness :
    ∃ c, (get sampleEngine sampleCast
        (set sampleEngine emptyState (engine_wrap (.mk (.luaGlobals ⟨0⟩) (some ⟨0⟩)))
          (engine_wrap (.mk (.string (some "x")) none))
          (engine_wrap (.mk (.integral 42) none))).2
        (engine_wrap (.mk (.luaGlobals ⟨0⟩) (some ⟨0⟩)))
        (engine_wrap (.mk (.string (some "x")) none))).result = .ok (engine_wrap c) ∧
      c.data = .integral 42 ∧ c.type = ENGINE_INTEGRAL :=
  (set_then_get_integral sampleEngine sampleCast emptyState ⟨0⟩ ⟨0⟩ "x" none none 42 rfl).2.2

/-- On a globals cell bound to an instance, with a String key of name `name`:
`set` pushes the stack encoding of the value (the stack then holds it on top of
the stack on entry) and `lua_setglobal` pops it and binds it to `name`, leaving
the stack on entry and every other global; `get` pushes the global `name` and
drains it into the cell returned, leaving the stack and the globals on entry. -/
theorem globals_bound_set_get_exact (E : Engine) (fp : CCast) (L : lua_State) (st : StateRef)
    (inst : engine_inst) (name : String) (kinst : Option engine_inst) (v : engine_value) :
    (engine_pushvalue E L v).stack = E.encode v :: L.stack ∧
      set E L (engine_wrap (.mk (.luaGlobals st) (some inst)))
          (engine_wrap (.mk (.string (some name)) kinst)) (engine_wrap v) =
        (.ok (),
          { stack := L.stack
            globals := fun k => if k = name then E.encode v else L.globals k
            trace := L.trace ++ [.engine_pushvalue, .setglobal name] }) ∧
      (lua_getglobal L name).stack = L.globals name :: L.stack ∧
      get E fp L (engine_wrap (.mk (.luaGlobals st) (some inst)))
          (engine_wrap (.mk (.string (some name)) kinst)) =
        { result := .ok (engine_wrap (E.decode (some inst) (L.globals name)))
          state :=
            { stack := L.stack
              globals := L.globals
              trace := L.trace ++ [.getglobal name, .engine_popvalue] }
          reads := [] } := by
  refine ⟨rfl, ?_, rfl, ?_⟩
  · simp [Consoles.set, findnative, engine_wrap, engine_value.data, engine_value.inst,
      lua_setglobal, engine_pushvalue]
  · simp [get, findnative, engine_unwrap, engine_wrap, engine_value.data, engine_value.inst,
      lua_getglobal, engine_popvalue]

/-- Whenever `set` or `get` ends with an exception, the interpreter state, its
log included, is the one on entry: no call was made on the interpreter. -/
theorem globals_error_leaves_state (E : Engine) (fp : CCast) (L : lua_State) :
    (∀ this key value e, (set E L this key value).1 = .error e →
        (set E L this key value).2 = L) ∧
      (∀ this key e, (get E fp L this key).result = .error e →
        (get E fp L this key).state = L) := by
  refine ⟨?_, ?_⟩
  · intro this key value e
    unfold Consoles.set
    repeat' split
    all_goals first | (intro _; rfl) | (intro h; cases h)
  · intro this key e
    unfold Consoles.get get_array
    repeat' split
    all_goals first | (intro _; rfl) | (intro h; cases h)

/-- C8, the code at the failing input: `get` on a globals cell whose instance is
NULL, with a String key of name `name`.  The input is one the claim lists as
rejected with no stack operation (missing instance), yet `get` does not reject
it: it calls `lua_getglobal`, which pushes the global on the stack, then drains
it, and returns a cell; the state returned carries the two calls in its log and
is not the state on entry. -/
theorem get_without_instance_stack_operations (E : Engine) (fp : CCast) (L : lua_State)
    (st : StateRef) (name : String) (kinst : Option engine_inst) :
    (get E fp L (engine_wrap (.mk (.luaGlobals st) none))
          (engine_wrap (.mk (.string (some name)) kinst))).state =
        (engine_popvalue E none (lua_getglobal L name)).2 ∧
      (lua_getglobal L name).stack = L.globals name :: L.stack ∧
      (lua_getglobal L name).trace = L.trace ++ [.getglobal name] ∧
      (get E fp L (engine_wrap (.mk (.luaGlobals st) none))
          (engine_wrap (.mk (.string (some name)) kinst))).state.trace =
        L.trace ++ [.getglobal name, .engine_popvalue] ∧
      (∃ c, (get E fp L (engine_wrap (.mk (.luaGlobals st) none))
          (engine_wrap (.mk (.string (some name)) kinst))).result = .ok (engine_wrap c)) ∧
      (get E fp L (engine_wrap (.mk (.luaGlobals st) none))
          (engine_wrap (.mk (.string (some name)) kinst))).state.trace ≠ L.trace := by
  have htrace : (get E fp L (engine_wrap (.mk (.luaGlobals st) none))
      (engine_wrap (.mk (.string (some name)) kinst))).state.trace =
      L.trace ++ [.getglobal name, .engine_popvalue] := by
    simp [get, findnative, engine_unwrap, engine_wrap, engine_value.data, lua_getglobal,
      engine_popvalue]
  refine ⟨rfl, rfl, rfl, htrace, ⟨_, rfl⟩, ?_⟩
  rw [htrace]
  intro h
  have hlen := congrArg List.length h
  simp at hlen

/-- C9: on a globals cell bound to an instance, with a key cell whose tag is not
String, `set` fails with InvalidKeyType and `get` with UnsupportedGlobalKeyType;
with a String key whose string is null both fail with NullKeyValue.  In each case
nothing is returned and the interpreter state, global namespace included, is the
one on entry. -/
theorem globals_bad_key_rejected (E : Engine) (fp : CCast) (L : lua_State) (st : StateRef)
    (inst : engine_inst) (key value : engine_value) (kinst : Option engine_inst)
    (hkey : key.type ≠ ENGINE_STRING) :
    set E L (engine_wrap (.mk (.luaGlobals st) (some inst))) (engine_wrap key)
        (engine_wrap value) = (.error .InvalidKeyType, L) ∧
      get E fp L (engine_wrap (.mk (.luaGlobals st) (some inst))) (engine_wrap key) =
        { result := .error .UnsupportedGlobalKeyType, state := L, reads := [] } ∧
      set E L (engine_wrap (.mk (.luaGlobals st) (some inst)))
        (engine_wrap (.mk (.string none) kinst)) (engine_wrap value) =
          (.error .NullKeyValue, L) ∧
      get E fp L (engine_wrap (.mk (.luaGlobals st) (some inst)))
        (engine_wrap (.mk (.string none) kinst)) =
          { result := .error .NullKeyValue, state := L, reads := [] } := by
  obtain ⟨kd, ki⟩ := key
  refine ⟨?_, ?_, rfl, rfl⟩ <;>
    cases kd <;>
    first
      | exact absurd rfl hkey
      | simp [Consoles.set, get, findnative, engine_unwrap, engine_wrap, engine_value.data,
          engine_value.inst]

/-- Witness of C9: an Integral key on a bound globals cell. -/
theorem globals_bad_key_rejected_witness :
    set sampleEngine emptyState (engine_wrap (.mk (.luaGlobals ⟨0⟩) (some ⟨0⟩)))
        (engine_wrap (.mk (.integral 1) none)) (engine_wrap (.mk (.integral 42) none)) =
      (.error .InvalidKeyType, emptyState) ∧
    get sampleEngine sampleCast emptyState (engine_wrap (.mk (.luaGlobals ⟨0⟩) (some ⟨0⟩)))
        (engine_wrap (.mk (.integral 1) none)) =
      { result := .error .UnsupportedGlobalKeyType, state := emptyState, reads := [] } :=
  ⟨(globals_bad_key_rejected sampleEngine sampleCast emptyState ⟨0⟩ ⟨0⟩
      (.mk (.integral 1) none) (.mk (.integral 42) none) none (by decide)).1,
    (globals_bad_key_rejected sampleEngine sampleCast emptyState ⟨0⟩ ⟨0⟩
      (.mk (.integral 1) none) (.mk (.integral 42) none) none (by decide)).2.1⟩

/-- C10, the code at the failing input: on a globals cell whose instance is NULL
`set` is rejected with GlobalsNotAssociated and touches nothing, but `get` with a
String key is not rejected: it reads the global, drains it into a cell built with
the NULL instance and returns that cell, after two calls on the interpreter. -/
theorem get_globals_without_instance (E : Engine) (fp : CCast) (L : lua_State)
    (st : StateRef) (name : String) (kinst : Option engine_inst) (key value : engine_value) :
    set E L (engine_wrap (.mk (.luaGlobals st) none)) (engine_wrap key) (engine_wrap value) =
        (.error .GlobalsNotAssociated, L) ∧
      (get E fp L (engine_wrap (.mk (.luaGlobals st) none))
        (engine_wrap (.mk (.string (some name)) kinst))).result =
          .ok (engine_wrap (E.decode none (L.globals name))) ∧
      (get E fp L (engine_wrap (.mk (.luaGlobals st) none))
        (engine_wrap (.mk (.string (some name)) kinst))).state.trace =
          L.trace ++ [.getglobal name, .engine_popvalue] := by
  refine ⟨?_, ?_, ?_⟩ <;>
    simp [Consoles.set, get, findnative, engine_unwrap, engine_wrap, engine_value.data,
      engine_value.inst, lua_getglobal, engine_popvalue]

/-! ### Calls -/

/-- The argument loop pushes, in order, what `pushedValue` gives for each element
and nothing else: the last element pushed ends on top. -/
theorem handlecall_pushargs_stack_eq (E : Engine) :
    ∀ (args : List jobject) (L : lua_State) (pending : Option Error),
      (handlecall_pushargs E args L pending).1.stack =
        (args.filterMap (pushedValue E)).reverse ++ L.stack := by
  intro args
  induction args with
  | nil => intro L pending; rfl
  | cons a rest ih =>
    intro L pending
    match a with
    | .null => simpa [handlecall_pushargs, pushedValue] using ih L pending
    | .wrapper none =>
      simp only [handlecall_pushargs, ih]
      simp [pushedValue, lua_pushnil]
    | .wrapper (some element) =>
      simp only [handlecall_pushargs, ih]
      simp [pushedValue, engine_pushvalue]

/-- On an array without null element the loop pushes one value per element. -/
theorem filterMap_pushedValue_length (E : Engine) :
    ∀ args : List jobject, (∀ a ∈ args, a ≠ jobject.null) →
      (args.filterMap (pushedValue E)).length = args.length := by
  intro args
  induction args with
  | nil => intro _; rfl
  | cons a rest ih =>
    intro hne
    have hrest : ∀ x ∈ rest, x ≠ jobject.null := fun x hx => hne x (List.mem_cons_of_mem a hx)
    match a, hne a (List.mem_cons_self a rest) with
    | .wrapper none, _ => simp [pushedValue, ih hrest]
    | .wrapper (some element), _ => simp [pushedValue, ih hrest]

/-- The argument loop on an array without null elements pushes one value per
element: the stack grows by exactly the length of the array. -/
theorem handlecall_pushargs_stack (E : Engine) (args : List jobject) (L : lua_State)
    (pending : Option Error) (hne : ∀ a ∈ args, a ≠ jobject.null) :
    ∃ vs : List LuaValue, vs.length = args.length ∧
      (handlecall_pushargs E args L pending).1.stack = vs ++ L.stack :=
  ⟨(args.filterMap (pushedValue E)).reverse,
    by rw [List.length_reverse, filterMap_pushedValue_length E args hne],
    handlecall_pushargs_stack_eq E args L pending⟩

/-- The stack after the lookup phase: the entry found and the registry, on top of
the stack on entry. -/
theorem handlecall_lookup_stack (E : Engine) (L : lua_State) (func : Int) :
    ∃ entry reg, (handlecall_lookup E L func).stack = entry :: reg :: L.stack := by
  unfold handlecall_lookup
  by_cases hnil : lua_isnil (lua_getglobal L E.FUNCTION_REGISTRY) (-1) = true
  · simp only [if_pos hnil]
    simp [lua_rawget, lua_pushinteger, lua_setglobal, lua_pushvalue, lua_newtable,
      lua_pop, lua_getglobal]
  · simp only [if_neg hnil]
    simp [lua_rawget, lua_pushinteger, lua_getglobal]

/-- The invocation on a stack that holds `nargs` values above the function slot
consumes exactly those and the function. -/
theorem engine_call_stack (E : Engine) (L : lua_State) (vs : List LuaValue) (f : LuaValue)
    (rest : List LuaValue) (h : L.stack = vs ++ f :: rest) :
    (engine_call E L vs.length).2.stack = rest := by
  simp [engine_call, h]

/-- After a successful lookup, pushing the arguments of an array without null
element and invoking with its length leaves the stack as it was on entry. -/
theorem handlecall_invoke_stack (E : Engine) (L : lua_State) (func : Int)
    (arr : Option (List jobject)) :
    (∀ a, arr = some a → ∀ x ∈ a, x ≠ jobject.null) →
      (engine_call E (match arr with
          | some a => handlecall_pushargs E a (lua_remove (handlecall_lookup E L func) (-2)) none
          | none => (lua_remove (handlecall_lookup E L func) (-2), none)).1
        (match arr with
          | some a => a.length
          | none => 0)).2.stack = L.stack := by
  intro hne
  obtain ⟨entry, reg, hst⟩ := handlecall_lookup_stack E L func
  have h4 : (lua_remove (handlecall_lookup E L func) (-2)).stack = entry :: L.stack := by
    simp [lua_remove, fromTop, hst]
  cases arr with
  | none => exact engine_call_stack E _ [] entry L.stack (by simpa using h4)
  | some a =>
    obtain ⟨vs, hlen, hvs⟩ := handlecall_pushargs_stack E a
      (lua_remove (handlecall_lookup E L func) (-2)) none (hne a rfl)
    rw [h4] at hvs
    have hc := engine_call_stack E _ vs entry L.stack hvs
    rw [hlen] at hc
    exact hc

/-- A call whose argument array has no null element returns with the stack as
it was on entry, on every path: unresolvable receiver, cell that cannot be
called, shared function, registry miss, and completed invocation. -/
theorem handlecall_balanced_without_null (E : Engine) (L : lua_State) (this : jobject)
    (arr : Option (List jobject)) (hne : ∀ a, arr = some a → ∀ x ∈ a, x ≠ jobject.null) :
    (handlecall E L this arr).2.stack = L.stack := by
  unfold handlecall
  split
  · rfl
  · split
    · rfl
    · rfl
    · rename_i func _
      split
      · obtain ⟨entry, reg, hst⟩ := handlecall_lookup_stack E L func
        simp only []
        by_cases hn : lua_isnil (handlecall_lookup E L func) (-1) = true
        · rw [if_pos hn]
          simp [lua_pop, hst]
        · rw [if_neg hn]
          have hc := handlecall_invoke_stack E L func arr hne
          split <;> [skip; split] <;> simp only [hc]
      · rfl
    · rfl

/-- C2, the code at the failing input: the argument loop pushes nothing for a null
element, so a call with the one-element array `[null]` on a registered function
makes no push at all between the registry lookup and the invocation, and still
invokes with argument count 1. -/
theorem handlecall_null_argument_not_pushed :
    (∀ (E : Engine) (L : lua_State), handlecall_pushargs E [.null] L none = (L, none)) ∧
      (handlecall sampleEngine (registryState [])
        (engine_wrap (.mk (.luaFunction 1) (some ⟨0⟩))) (some [.null])).2.trace =
        [.getglobal "__functions", .pushinteger 1, .rawget (-2), .remove (-2),
          .engine_call 1] := by
  refine ⟨fun _ _ => rfl, ?_⟩
  simp [handlecall, handlecall_lookup, handlecall_pushargs, findnative, engine_wrap,
    engine_value.data, engine_value.inst, registryState, sampleEngine, lua_getglobal, lua_isnil,
    index2value, fromTop, lua_pushinteger, lua_rawget, rawlookup, lua_remove, engine_call]

/-- C3, the code at the failing input: a call with the array `[null]` on a
registered function, entered with one value on the stack, returns with an empty
stack: the invocation consumed the function and one more value although no
argument was pushed. -/
theorem handlecall_null_argument_unbalanced :
    (handlecall sampleEngine (registryState [.number 9])
        (engine_wrap (.mk (.luaFunction 1) (some ⟨0⟩))) (some [.null])).2.stack.length = 0 ∧
      (registryState [.number 9]).stack.length = 1 := by
  refine ⟨?_, rfl⟩
  simp [handlecall, handlecall_lookup, handlecall_pushargs, findnative, engine_wrap,
    engine_value.data, engine_value.inst, registryState, sampleEngine, lua_getglobal, lua_isnil,
    index2value, fromTop, lua_pushinteger, lua_rawget, rawlookup, lua_remove, engine_call]

/-- C11: a call on a cell that is not an interpreter function bound to an instance
fails at once, for `call()` and for `call(args)` with any array: a lambda or
reflect stub fails with UnimplementedCallKind, an interpreter function without
instance with InternalError, every other kind with NotCallable carrying the tag
of the cell.  The interpreter state returned is the state on entry, its log
included, so no lookup, push or invocation was made, and no value is returned. -/
theorem handlecall_fails_fast (E : Engine) (L : lua_State) (arr : Option (List jobject)) :
    (∀ inst, callArgs E L (engine_wrap (.mk .javaLambdaFunction inst)) arr =
          (.error (.UnimplementedCallKind ENGINE_JAVA_LAMBDA_FUNCTION), L) ∧
        call E L (engine_wrap (.mk .javaLambdaFunction inst)) =
          (.error (.UnimplementedCallKind ENGINE_JAVA_LAMBDA_FUNCTION), L)) ∧
      (∀ inst, callArgs E L (engine_wrap (.mk .javaReflectFunction inst)) arr =
          (.error (.UnimplementedCallKind ENGINE_JAVA_REFLECT_FUNCTION), L) ∧
        call E L (engine_wrap (.mk .javaReflectFunction inst)) =
          (.error (.UnimplementedCallKind ENGINE_JAVA_REFLECT_FUNCTION), L)) ∧
      (∀ func, callArgs E L (engine_wrap (.mk (.luaFunction func) none)) arr =
          (.error .InternalError, L) ∧
        call E L (engine_wrap (.mk (.luaFunction func) none)) = (.error .InternalError, L)) ∧
      (∀ c : engine_value, c.type ≠ ENGINE_JAVA_LAMBDA_FUNCTION →
        c.type ≠ ENGINE_JAVA_REFLECT_FUNCTION → c.type ≠ ENGINE_LUA_FUNCTION →
        callArgs E L (engine_wrap c) arr = (.error (.NotCallable c.type), L) ∧
          call E L (engine_wrap c) = (.error (.NotCallable c.type), L)) := by
  refine ⟨fun _ => ⟨rfl, rfl⟩, fun _ => ⟨rfl, rfl⟩, fun _ => ⟨rfl, rfl⟩, ?_⟩
  intro c h1 h2 h3
  obtain ⟨d, i⟩ := c
  cases d <;>
    first
      | exact absurd rfl h1
      | exact absurd rfl h2
      | exact absurd rfl h3
      | exact ⟨rfl, rfl⟩

/-- On an array cell with an Integral key in range, `get` performs one element
read, of the key cell, and ends on the wrong-variant read: the key is an
Integral cell and has no array payload. -/
theorem get_array_in_range (E : Engine) (fp : CCast) (L : lua_State)
    (values : List (Option engine_value)) (ainst kinst : Option engine_inst) (i : Int)
    (h : 0 ≤ i ∧ i < (values.length : Int)) :
    get E fp L (engine_wrap (.mk (.array values) ainst))
        (engine_wrap (.mk (.integral i) kinst)) =
      { result := .error (.WrongVariantRead ENGINE_INTEGRAL), state := L, reads := [.ofKey i] } := by
  have hin : i < (values.length : Int) ∧ i ≥ 0 := ⟨h.2, h.1⟩
  simp [get, get_array, findnative, engine_unwrap, engine_wrap, engine_value.data, hin,
    data_array_values, engine_value.type]

/-- C13, the code at the failing input: index 0 on the one-element array that
holds the Integral cell 5.  The element is not taken from the array: the one read
is `key->data.array.values[0]`, of the key cell, whose payload is an integer, and
no copy of the element is returned. -/
theorem get_array_reads_key_payload :
    get sampleEngine sampleCast emptyState
        (engine_wrap (.mk (.array [some (.mk (.integral 5) none)]) none))
        (engine_wrap (.mk (.integral 0) none)) =
      { result := .error (.WrongVariantRead ENGINE_INTEGRAL), state := emptyState,
        reads := [.ofKey 0] } := by
  simp [get, get_array, findnative, engine_unwrap, engine_wrap, engine_value.data,
    data_array_values, engine_value.type]

/-! ### The function registry -/

end Consoles
